import Mathlib

/-!
Verification development for the `train_yolo_v8_classification` plugin.

The Python sources embedded here are
`train_yolo_v8_classification_process.py` (parameter class
`TrainYoloV8ClassificationParam` and task class
`TrainYoloV8Classification`).  Python runtime values stored in the
parameter dictionary `self.cfg` are modelled by the inductive type
`Value`; Python floats are modelled as exact rationals (built with
`mkRat`), which is faithful for the decimal literals and the
store/compare operations this code performs (no float arithmetic is done
by the plugin itself).  Effectful parts of `run()` (file opening, model
construction, directory creation, the delegated `model.train` call, the
progress signal) are modelled by an explicit effect record
`RunEffects`, accumulated up to the first raised exception.
-/

namespace YoloV8Cls

/-- A Python runtime value as it can appear in the parameter map or the
parsed YAML document: a string, an int, a float (exact rational), a
bool, or a `torch.device` object carrying its type string. -/
inductive Value where
  | str (s : String)
  | int (n : Int)
  | float (q : Rat)
  | bool (b : Bool)
  | device (d : String)
deriving DecidableEq

/-- Python truthiness (`if param.cfg["config_file"]:`): a string is
truthy iff non-empty, numbers iff non-zero, bools are themselves,
object instances such as `torch.device` are always truthy. -/
def Value.truthy : Value → Bool
  | .str s => !(s == "")
  | .int n => !(n == 0)
  | .float q => !(q == 0)
  | .bool b => b
  | .device _ => true

/-- Python `str(...)` on the values above.  `str` of a float is modelled
via the rational printer; the plugin only ever applies `str` to values
that are already strings, so the exact float rendering is never
load-bearing. -/
def pyStr : Value → String
  | .str s => s
  | .int n => toString n
  | .float q => toString q
  | .bool b => if b then "True" else "False"
  | .device d => d

/-- Digits of a decimal string, most significant first, as a number. -/
def digitsToNat (cs : List Char) : Nat :=
  cs.foldl (fun a c => a * 10 + (c.toNat - 48)) 0

/-- Python-style whitespace test for the characters `int()`/`float()`
strip from their string argument. -/
def isSpaceChar (c : Char) : Bool :=
  c == ' ' || c == '\t' || c == '\n' || c == '\r'

/-- Strip leading and trailing whitespace, as `int()`/`float()` do. -/
def trimChars (cs : List Char) : List Char :=
  ((cs.dropWhile isSpaceChar).reverse.dropWhile isSpaceChar).reverse

/-- A non-empty all-digit string parsed as a natural number. -/
def parseNatChars (cs : List Char) : Option Nat :=
  if cs ≠ [] ∧ cs.all Char.isDigit then some (digitsToNat cs) else none

/-- Python `int("...")` on a plain decimal literal: optional sign,
then one or more digits, surrounding whitespace allowed.  (Underscore
separators and non-ASCII digits are outside the model.) -/
def pyIntOfString (s : String) : Option Int :=
  match trimChars s.data with
  | '+' :: rest => (parseNatChars rest).map (fun n => (n : Int))
  | '-' :: rest => (parseNatChars rest).map (fun n => -(n : Int))
  | cs => (parseNatChars cs).map (fun n => (n : Int))

/-- The unsigned part of a Python `float("...")` literal: digits with at
most one decimal point, at least one digit overall. -/
def parseDecChars (cs : List Char) : Option Rat :=
  match cs.splitOn '.' with
  | [a] => if a ≠ [] ∧ a.all Char.isDigit then some (mkRat (digitsToNat a) 1) else none
  | [a, b] =>
      if (a ++ b) ≠ [] ∧ a.all Char.isDigit ∧ b.all Char.isDigit then
        some (mkRat (digitsToNat a * 10 ^ b.length + digitsToNat b) (10 ^ b.length))
      else none
  | _ => none

/-- Python `float("...")` on a plain decimal literal: optional sign,
digits with an optional decimal point, surrounding whitespace allowed.
(Exponents, `inf`/`nan` and underscore separators are outside the
model.) -/
def pyFloatOfString (s : String) : Option Rat :=
  match trimChars s.data with
  | '+' :: rest => parseDecChars rest
  | '-' :: rest => (parseDecChars rest).map (fun q => -q)
  | cs => parseDecChars cs

/-- Python `int(...)`: identity on ints, truncation toward zero on
floats, `1`/`0` on bools, decimal parsing on strings (`ValueError`
modelled as `none`), `TypeError` on a `torch.device`. -/
def pyInt : Value → Option Int
  | .int n => some n
  | .float q => some (q.num.tdiv q.den)
  | .bool b => some (if b then 1 else 0)
  | .str s => pyIntOfString s
  | .device _ => none

/-- Python `float(...)`: identity on floats, exact injection on ints and
bools, decimal parsing on strings, `TypeError` on a `torch.device`. -/
def pyFloat : Value → Option Rat
  | .float q => some q
  | .int n => some (mkRat n 1)
  | .bool b => some (if b then mkRat 1 1 else 0)
  | .str s => pyFloatOfString s
  | .device _ => none

/-- Shape test: is the value a Python `str`? -/
def Value.isStr : Value → Bool
  | .str _ => true
  | _ => false

/-- Shape test: is the value a Python `int`? -/
def Value.isInt : Value → Bool
  | .int _ => true
  | _ => false

/-- Shape test: is the value a Python `float`? -/
def Value.isFloat : Value → Bool
  | .float _ => true
  | _ => false

/-- The fourteen keys of the parameter dictionary `self.cfg`.  The
constructor `dataset_split` models the key `"dataset_split_ratio"`
(the Lean identifier is shortened; the string key below is exact). -/
inductive Field where
  | dataset_folder
  | model_name
  | epochs
  | batch_size
  | input_size
  | workers
  | optimizer
  | weight_decay
  | momentum
  | lr0
  | lrf
  | config_file
  | dataset_split
  | output_folder
deriving DecidableEq

/-- Dictionary key of each field, exactly as written in the source. -/
def Field.key : Field → String
  | .dataset_folder => "dataset_folder"
  | .model_name => "model_name"
  | .epochs => "epochs"
  | .batch_size => "batch_size"
  | .input_size => "input_size"
  | .workers => "workers"
  | .optimizer => "optimizer"
  | .weight_decay => "weight_decay"
  | .momentum => "momentum"
  | .lr0 => "lr0"
  | .lrf => "lrf"
  | .config_file => "config_file"
  | .dataset_split => "dataset_split_ratio"
  | .output_folder => "output_folder"

/-- The conversion `set_values` applies to the raw value of each key,
transcribing lines 58-72 of the process file: `str(...)` for the path
and name fields, `int(...)` / `float(...)` for the numeric fields, and
no conversion at all for `config_file` (line 69 stores
`param_map["config_file"]` verbatim). -/
def coerceField : Field → Value → Option Value
  | .dataset_folder, v => some (.str (pyStr v))
  | .model_name, v => some (.str (pyStr v))
  | .epochs, v => (pyInt v).map .int
  | .batch_size, v => (pyInt v).map .int
  | .input_size, v => (pyInt v).map .int
  | .workers, v => (pyInt v).map .int
  | .optimizer, v => some (.str (pyStr v))
  | .weight_decay, v => (pyFloat v).map .float
  | .momentum, v => (pyFloat v).map .float
  | .lr0, v => (pyFloat v).map .float
  | .lrf, v => (pyFloat v).map .float
  | .config_file, v => some v
  | .dataset_split, v => (pyFloat v).map .float
  | .output_folder, v => some (.str (pyStr v))

/-- Exceptions `set_values` can raise: `KeyError` for a missing key,
`ValueError`/`TypeError` for a value the conversion rejects. -/
inductive SetErr where
  | keyErr (k : String)
  | valueErr (k : String)
deriving DecidableEq

/-- The `param_map` argument of `set_values`: a key-value mapping,
modelled as an association list (first binding wins). -/
def ParamMap := List (String × Value)

/-- Dictionary lookup `param_map[k]`. -/
def lookupKey (m : ParamMap) (k : String) : Option Value :=
  match m with
  | [] => none
  | (k', v) :: rest => if k' = k then some v else lookupKey rest k

/-- Evaluation of the right-hand side of one assignment in
`set_values`: index into `param_map` (raising `KeyError`), then apply
the field's conversion (raising `ValueError`/`TypeError`). -/
def readCoerce (m : ParamMap) (f : Field) : Except SetErr Value :=
  match lookupKey m (Field.key f) with
  | none => .error (.keyErr (Field.key f))
  | some v =>
      match coerceField f v with
      | none => .error (.valueErr (Field.key f))
      | some w => .ok w

/-- Whether an `Except` is a success. -/
def exOk : Except SetErr Value → Bool
  | .ok _ => true
  | .error _ => false

/-- Success value of an `Except`, defaulting to the empty string. -/
def okValD : Except SetErr Value → Value
  | .ok v => v
  | .error _ => .str ""

/-- The parameter dictionary `self.cfg` of
`TrainYoloV8ClassificationParam`, with one slot per key.  Every slot
holds a runtime `Value`, as a Python dict does; `dataset_split` holds
the `"dataset_split_ratio"` entry. -/
structure Cfg where
  dataset_folder : Value
  model_name : Value
  epochs : Value
  batch_size : Value
  input_size : Value
  workers : Value
  optimizer : Value
  weight_decay : Value
  momentum : Value
  lr0 : Value
  lrf : Value
  config_file : Value
  dataset_split : Value
  output_folder : Value
deriving DecidableEq

/-- Read one slot of the dictionary. -/
def Cfg.get (c : Cfg) : Field → Value
  | .dataset_folder => c.dataset_folder
  | .model_name => c.model_name
  | .epochs => c.epochs
  | .batch_size => c.batch_size
  | .input_size => c.input_size
  | .workers => c.workers
  | .optimizer => c.optimizer
  | .weight_decay => c.weight_decay
  | .momentum => c.momentum
  | .lr0 => c.lr0
  | .lrf => c.lrf
  | .config_file => c.config_file
  | .dataset_split => c.dataset_split
  | .output_folder => c.output_folder

/-- Write one slot of the dictionary. -/
def Cfg.set (c : Cfg) : Field → Value → Cfg
  | .dataset_folder, v => { c with dataset_folder := v }
  | .model_name, v => { c with model_name := v }
  | .epochs, v => { c with epochs := v }
  | .batch_size, v => { c with batch_size := v }
  | .input_size, v => { c with input_size := v }
  | .workers, v => { c with workers := v }
  | .optimizer, v => { c with optimizer := v }
  | .weight_decay, v => { c with weight_decay := v }
  | .momentum, v => { c with momentum := v }
  | .lr0, v => { c with lr0 := v }
  | .lrf, v => { c with lrf := v }
  | .config_file, v => { c with config_file := v }
  | .dataset_split, v => { c with dataset_split := v }
  | .output_folder, v => { c with output_folder := v }

/-- True iff the last character of a path is the separator `/`
(posix model of the `os.path.join` separator test). -/
def endsWithSlash (s : String) : Bool :=
  match s.data.getLast? with
  | some c => c == '/'
  | none => false

/-- `os.path.join(a, b)` on posix for the shapes this plugin uses:
an absolute second component wins, an empty first component
contributes nothing, and otherwise a single `/` is inserted unless
already present. -/
def joinPath (a b : String) : String :=
  if b.data.head? = some '/' then b
  else if a = "" then b
  else if endsWithSlash a then a ++ b
  else a ++ "/" ++ b

/-- `TrainYoloV8ClassificationParam.__init__` (lines 37-55),
parameterised by the plugin directory `os.path.dirname
(os.path.realpath(__file__))`.  `dataset_folder` uses `os.path.join`,
`output_folder` uses plain string concatenation with `"/runs/"`; the
float literals 0.9, 0.0005, 0.937, 0.01 are the exact rationals
below. -/
def defaultCfg (pluginDir : String) : Cfg where
  dataset_folder := .str (joinPath pluginDir "dataset")
  model_name := .str "yolov8m-cls"
  epochs := .int 100
  batch_size := .int 8
  input_size := .int 640
  dataset_split := .float (mkRat 9 10)
  workers := .int 0
  optimizer := .str "auto"
  weight_decay := .float (mkRat 5 10000)
  momentum := .float (mkRat 937 1000)
  lr0 := .float (mkRat 1 100)
  lrf := .float (mkRat 1 100)
  config_file := .str ""
  output_folder := .str (pluginDir ++ "/runs/")

/-- The order in which `set_values` (lines 57-72) assigns the slots:
`dataset_folder`, `model_name`, `epochs`, `batch_size`, `input_size`,
`workers`, `optimizer`, `weight_decay`, `momentum`, `lr0`, `lrf`,
`config_file`, `dataset_split_ratio`, `output_folder`. -/
def updOrder : List Field :=
  [.dataset_folder, .model_name, .epochs, .batch_size, .input_size,
   .workers, .optimizer, .weight_decay, .momentum, .lr0, .lrf,
   .config_file, .dataset_split, .output_folder]

/-- One assignment statement of `set_values`: once an exception has
been raised nothing further executes; otherwise the right-hand side is
evaluated and, on success, stored. -/
def setStep (m : ParamMap) (acc : Cfg × Option SetErr) (f : Field) : Cfg × Option SetErr :=
  match acc.2 with
  | some _ => acc
  | none =>
      match readCoerce m f with
      | .error e => (acc.1, some e)
      | .ok v => (Cfg.set acc.1 f v, none)

/-- `TrainYoloV8ClassificationParam.set_values`: the fourteen
assignments executed in source order, returning the (possibly
partially updated) dictionary together with the exception raised, if
any. -/
def set_values (c : Cfg) (m : ParamMap) : Cfg × Option SetErr :=
  updOrder.foldl (setStep m) (c, none)

/-- The successful updates alone, for stating partial-update facts. -/
def applyAll (m : ParamMap) (c : Cfg) (l : List Field) : Cfg :=
  l.foldl (fun c' f => Cfg.set c' f (okValD (readCoerce m f))) c

/-- A wall-clock instant as `datetime.now()` delivers it, at second
granularity (the components `strftime` formats). -/
structure DateTime where
  year : Nat
  month : Nat
  day : Nat
  hour : Nat
  minute : Nat
  second : Nat
deriving DecidableEq

/-- Component ranges of a real calendar instant (four-digit year). -/
def validDT (t : DateTime) : Prop :=
  1000 ≤ t.year ∧ t.year ≤ 9999 ∧ 1 ≤ t.month ∧ t.month ≤ 12 ∧
  1 ≤ t.day ∧ t.day ≤ 31 ∧ t.hour ≤ 23 ∧ t.minute ≤ 59 ∧ t.second ≤ 59

instance (t : DateTime) : Decidable (validDT t) := by
  unfold validDT; infer_instance

/-- The decimal digit character for `n % 10`. -/
def digitChar (n : Nat) : Char := Char.ofNat (48 + n % 10)

/-- Two-digit zero-padded decimal rendering (`%m`, `%d`, `%H`, `%M`,
`%S` on in-range components), as characters. -/
def pad2 (n : Nat) : List Char := [digitChar (n / 10), digitChar n]

/-- Four-digit decimal rendering (`%Y` on four-digit years), as
characters. -/
def pad4 (n : Nat) : List Char :=
  [digitChar (n / 1000), digitChar (n / 100), digitChar (n / 10), digitChar n]

/-- `datetime.now().strftime('%Y%m%d_%H%M%S')` (line 135): the `%Y`,
`%m`, `%d` renderings, an underscore, then `%H`, `%M`, `%S`. -/
def strftimeYmdHMS (t : DateTime) : String :=
  String.mk (pad4 t.year ++ pad2 t.month ++ pad2 t.day ++ ['_'] ++
    pad2 t.hour ++ pad2 t.minute ++ pad2 t.second)

/-- The key-value document `yaml.safe_load` returns for the config
file: a mapping from option names to values (keys unique in a parsed
YAML mapping). -/
def YamlDoc := List (String × Value)

/-- The externally observable effects of one `run()` call, accumulated
in program order up to the first raised exception. -/
structure RunEffects where
  began : Bool
  openedPaths : List String
  modelArtifact : Option Value
  callbackAdded : Bool
  createdDirs : List (String × Bool)
  trainCalls : List (List (String × Value))
  progressEmits : Nat
  ended : Bool
deriving DecidableEq

/-- Exceptions `run()` can raise before the delegated training call:
an unreadable/unparsable config file, a missing key in the parsed
document, or an `open()` call on a non-string, non-descriptor value. -/
inductive RunErr where
  | fileErr (path : String)
  | keyErr (k : String)
  | typeErr
deriving DecidableEq

/-- Effects right after `begin_task_run()`: nothing observable yet. -/
def initEffects : RunEffects where
  began := true
  openedPaths := []
  modelArtifact := none
  callbackAdded := false
  createdDirs := []
  trainCalls := []
  progressEmits := 0
  ended := false

/-- Device selection (line 118): `"cuda"` iff
`torch.cuda.is_available()`. -/
def deviceOf (cudaAvail : Bool) : String := if cudaAvail then "cuda" else "cpu"

/-- The keyword arguments of the `self.model.train(...)` call in the
non-config branch (lines 148-162), in source order.  `pretrained=True`
is hard-coded; `device` is the `torch.device` selected at line 118;
`project` is the timestamped output directory. -/
def mappedTrainArgs (cfg : Cfg) (datasetFolder : String) (dev : String)
    (proj : String) : List (String × Value) :=
  [("data", .str datasetFolder),
   ("epochs", cfg.epochs),
   ("imgsz", cfg.input_size),
   ("batch", cfg.batch_size),
   ("workers", cfg.workers),
   ("optimizer", cfg.optimizer),
   ("momentum", cfg.momentum),
   ("weight_decay", cfg.weight_decay),
   ("lr0", cfg.lr0),
   ("lrf", cfg.lrf),
   ("pretrained", .bool true),
   ("device", .device dev),
   ("project", .str proj)]

/-- `TrainYoloV8Classification.run` (lines 105-168).  Inputs: the
parameter dictionary, the dataset path read from the task's folder
input, CUDA availability, the file system as a partial map from paths
to parsed YAML documents (`none` = the `open`/`yaml.safe_load`
sequence raises), and the current wall-clock time.  Returns the
accumulated effects and the exception raised, if any.

In any state reachable through `__init__`/`set_values`, `model_name`
and `output_folder` hold strings, so `pyStr` is the identity on them;
`config_file` can hold an arbitrary stored value, hence the explicit
match (Python's `open()` on a truthy non-string raises before any
effect beyond `begin_task_run`). -/
def run (cfg : Cfg) (datasetFolder : String) (cudaAvail : Bool)
    (fs : String → Option YamlDoc) (now : DateTime) : RunEffects × Option RunErr :=
  let dev := deviceOf cudaAvail
  let outF := pyStr cfg.output_folder
  let proj := joinPath outF (strftimeYmdHMS now)
  if Value.truthy cfg.config_file then
    match cfg.config_file with
    | .str p =>
        match fs p with
        | none => ({ initEffects with openedPaths := [p] }, some (.fileErr p))
        | some doc =>
            match lookupKey doc "model" with
            | none => ({ initEffects with openedPaths := [p] }, some (.keyErr "model"))
            | some art =>
                ({ initEffects with
                   openedPaths := [p]
                   modelArtifact := some art
                   callbackAdded := true
                   createdDirs := [(outF, true), (proj, true)]
                   trainCalls := [doc]
                   progressEmits := 1
                   ended := true }, none)
    | _ => (initEffects, some .typeErr)
  else
    ({ initEffects with
       modelArtifact := some (.str (pyStr cfg.model_name ++ ".pt"))
       callbackAdded := true
       createdDirs := [(outF, true), (proj, true)]
       trainCalls := [mappedTrainArgs cfg datasetFolder dev proj]
       progressEmits := 1
       ended := true }, none)

/-- `TrainYoloV8Classification.get_progress_steps` (lines 100-103). -/
def get_progress_steps : Nat := 1

/-- The directory set after one run: `os.makedirs(..., exist_ok=True)`
adds each requested directory (and its parents; idempotent). -/
def applyDirEffects (dirs : List String) (e : RunEffects) : List String :=
  dirs ++ e.createdDirs.map Prod.fst

/-! ### Concrete inputs for the closed instantiations -/

/-- A fully stringly-typed parameter map, as the host widget hands it
over. -/
def wMap : ParamMap :=
  [("dataset_folder", .str "/data/ds"), ("model_name", .str "yolov8n-cls"),
   ("epochs", .str "100"), ("batch_size", .str "4"), ("input_size", .str "320"),
   ("workers", .str "2"), ("optimizer", .str "SGD"), ("weight_decay", .str "0.0005"),
   ("momentum", .str "0.9"), ("lr0", .str "0.01"), ("lrf", .str "0.01"),
   ("config_file", .str ""), ("dataset_split_ratio", .str "0.8"),
   ("output_folder", .str "/out")]

/-- `wMap` with the `"epochs"` entry removed. -/
def wMapMissing : ParamMap :=
  [("dataset_folder", .str "/data/ds"), ("model_name", .str "yolov8n-cls"),
   ("batch_size", .str "4"), ("input_size", .str "320"),
   ("workers", .str "2"), ("optimizer", .str "SGD"), ("weight_decay", .str "0.0005"),
   ("momentum", .str "0.9"), ("lr0", .str "0.01"), ("lrf", .str "0.01"),
   ("config_file", .str ""), ("dataset_split_ratio", .str "0.8"),
   ("output_folder", .str "/out")]

/-- `wMap` with a non-string (but accepted) value for
`"config_file"`. -/
def cexMap : ParamMap :=
  [("dataset_folder", .str "/data/ds"), ("model_name", .str "yolov8n-cls"),
   ("epochs", .str "100"), ("batch_size", .str "4"), ("input_size", .str "320"),
   ("workers", .str "2"), ("optimizer", .str "SGD"), ("weight_decay", .str "0.0005"),
   ("momentum", .str "0.9"), ("lr0", .str "0.01"), ("lrf", .str "0.01"),
   ("config_file", .int 5), ("dataset_split_ratio", .str "0.8"),
   ("output_folder", .str "/out")]

/-- A parsed YAML config document carrying a `model` key. -/
def wDoc : YamlDoc := [("model", .str "custom.pt"), ("epochs", .int 7)]

/-- A parsed YAML config document lacking the `model` key. -/
def wDocNoModel : YamlDoc := [("epochs", .int 7)]

/-- A file system holding `wDoc` at `/cfg.yaml`. -/
def wFs : String → Option YamlDoc :=
  fun p => if p = "/cfg.yaml" then some wDoc else none

/-- A file system holding `wDocNoModel` at `/cfg.yaml`. -/
def wFsNoModel : String → Option YamlDoc :=
  fun p => if p = "/cfg.yaml" then some wDocNoModel else none

/-- An empty file system. -/
def wFsEmpty : String → Option YamlDoc := fun _ => none

/-- A default configuration pointing at the config file above. -/
def wCfgConfig : Cfg := { defaultCfg "/plugin" with config_file := .str "/cfg.yaml" }

/-- A default configuration with a one-epoch budget. -/
def wCfgE1 : Cfg := { defaultCfg "/plugin" with epochs := .int 1 }

/-- A default configuration with a thousand-epoch budget. -/
def wCfgE1000 : Cfg := { defaultCfg "/plugin" with epochs := .int 1000 }

/-- Two wall-clock instants one second apart. -/
def wT1 : DateTime := ⟨2024, 1, 2, 3, 4, 5⟩

/-- The instant one second after `wT1`. -/
def wT2 : DateTime := ⟨2024, 1, 2, 3, 4, 6⟩

/-! ### Helper lemmas about the parameter dictionary -/

theorem get_set_same (c : Cfg) (f : Field) (v : Value) : (Cfg.set c f v).get f = v := by
  cases f <;> rfl

theorem get_set_ne (c : Cfg) (f g : Field) (v : Value) (h : f ≠ g) :
    (Cfg.set c f v).get g = c.get g := by
  cases f <;> cases g <;> first | rfl | exact absurd rfl h

theorem updOrder_nodup : updOrder.Nodup := by decide

theorem foldl_setStep_error (m : ParamMap) (c : Cfg) (e : SetErr) (l : List Field) :
    l.foldl (setStep m) (c, some e) = (c, some e) := by
  induction l with
  | nil => rfl
  | cons f t ih =>
      show List.foldl (setStep m) (setStep m (c, some e) f) t = (c, some e)
      exact ih

theorem foldl_setStep_ok (m : ParamMap) (l : List Field) :
    ∀ c : Cfg, (∀ f ∈ l, exOk (readCoerce m f) = true) →
      l.foldl (setStep m) (c, none) = (applyAll m c l, none) := by
  induction l with
  | nil => intro c _; rfl
  | cons f t ih =>
      intro c h
      have hf := h f (List.mem_cons_self f t)
      cases hv : readCoerce m f with
      | error e => rw [hv] at hf; simp [exOk] at hf
      | ok v =>
          show List.foldl (setStep m) (setStep m (c, none) f) t = _
          rw [show setStep m (c, none) f = (Cfg.set c f v, none) by simp [setStep, hv]]
          rw [ih _ (fun g hg => h g (List.mem_cons_of_mem f hg))]
          show _ = (applyAll m (Cfg.set c f (okValD (readCoerce m f))) t, none)
          rw [hv]
          rfl

theorem foldl_setStep_none_iff (m : ParamMap) (l : List Field) :
    ∀ c : Cfg, (l.foldl (setStep m) (c, none)).2 = none ↔
      ∀ f ∈ l, exOk (readCoerce m f) = true := by
  induction l with
  | nil => intro c; simp
  | cons f t ih =>
      intro c
      cases hv : readCoerce m f with
      | error e =>
          have habs : List.foldl (setStep m) (c, none) (f :: t) = (c, some e) := by
            show List.foldl (setStep m) (setStep m (c, none) f) t = (c, some e)
            rw [show setStep m (c, none) f = (c, some e) by simp [setStep, hv]]
            exact foldl_setStep_error m c e t
          rw [habs]
          simp only [List.mem_cons]
          constructor
          · intro habs2; exact absurd habs2 (by simp)
          · intro hall
            have := hall f (Or.inl rfl)
            rw [hv] at this
            simp [exOk] at this
      | ok v =>
          show (List.foldl (setStep m) (setStep m (c, none) f) t).2 = none ↔ _
          rw [show setStep m (c, none) f = (Cfg.set c f v, none) by simp [setStep, hv]]
          rw [ih]
          constructor
          · intro hall g hg
            rcases List.mem_cons.mp hg with rfl | hg'
            · rw [hv]; rfl
            · exact hall g hg'
          · intro hall g hg
            exact hall g (List.mem_cons_of_mem f hg)

theorem get_applyAll_not_mem (m : ParamMap) (l : List Field) :
    ∀ c : Cfg, ∀ g : Field, g ∉ l → (applyAll m c l).get g = c.get g := by
  induction l with
  | nil => intro c g _; rfl
  | cons f t ih =>
      intro c g hg
      have hfg : f ≠ g := by
        intro hEq
        exact hg (hEq ▸ List.mem_cons_self f t)
      show (applyAll m (Cfg.set c f (okValD (readCoerce m f))) t).get g = c.get g
      rw [ih _ g (fun hmem => hg (List.mem_cons_of_mem f hmem))]
      exact get_set_ne c f g _ hfg

theorem get_applyAll_mem (m : ParamMap) (l : List Field) :
    ∀ c : Cfg, l.Nodup → ∀ g ∈ l, (applyAll m c l).get g = okValD (readCoerce m g) := by
  induction l with
  | nil => intro c _ g hg; cases hg
  | cons f t ih =>
      intro c hnd g hg
      rcases List.mem_cons.mp hg with rfl | hg'
      · have hft : g ∉ t := (List.nodup_cons.mp hnd).1
        show (applyAll m (Cfg.set c g (okValD (readCoerce m g))) t).get g = _
        rw [get_applyAll_not_mem m t _ g hft]
        exact get_set_same c g _
      · show (applyAll m (Cfg.set c f (okValD (readCoerce m f))) t).get g = _
        exact ih _ (List.nodup_cons.mp hnd).2 g hg'

theorem lookupKey_mem_keys (m : ParamMap) (k : String) (v : Value)
    (h : lookupKey m k = some v) : k ∈ m.map Prod.fst := by
  induction m with
  | nil => simp [lookupKey] at h
  | cons kv rest ih =>
      rw [show lookupKey (kv :: rest) k
            = if kv.1 = k then some kv.2 else lookupKey rest k from rfl] at h
      by_cases hk : kv.1 = k
      · simp [hk]
      · rw [if_neg hk] at h
        exact List.mem_cons_of_mem _ (ih h)

theorem okValD_int (m : ParamMap) (f : Field) (h : exOk (readCoerce m f) = true)
    (hf : f = Field.epochs ∨ f = Field.batch_size ∨ f = Field.input_size ∨ f = Field.workers) :
    Value.isInt (okValD (readCoerce m f)) = true := by
  unfold readCoerce at h ⊢
  cases hl : lookupKey m (Field.key f) with
  | none => rw [hl] at h; simp [exOk] at h
  | some v =>
      rcases hf with rfl | rfl | rfl | rfl <;>
        · cases hp : pyInt v with
          | none => rw [hl] at h; simp [exOk, coerceField, hp] at h
          | some n => simp [coerceField, hp, okValD, Value.isInt]

theorem okValD_float (m : ParamMap) (f : Field) (h : exOk (readCoerce m f) = true)
    (hf : f = Field.weight_decay ∨ f = Field.momentum ∨ f = Field.lr0 ∨ f = Field.lrf ∨
      f = Field.dataset_split) :
    Value.isFloat (okValD (readCoerce m f)) = true := by
  unfold readCoerce at h ⊢
  cases hl : lookupKey m (Field.key f) with
  | none => rw [hl] at h; simp [exOk] at h
  | some v =>
      rcases hf with rfl | rfl | rfl | rfl | rfl <;>
        · cases hp : pyFloat v with
          | none => rw [hl] at h; simp [exOk, coerceField, hp] at h
          | some q => simp [coerceField, hp, okValD, Value.isFloat]

theorem okValD_str (m : ParamMap) (f : Field) (h : exOk (readCoerce m f) = true)
    (hf : f = Field.dataset_folder ∨ f = Field.model_name ∨ f = Field.optimizer ∨
      f = Field.output_folder) :
    Value.isStr (okValD (readCoerce m f)) = true := by
  unfold readCoerce at h ⊢
  cases hl : lookupKey m (Field.key f) with
  | none => rw [hl] at h; simp [exOk] at h
  | some v =>
      rcases hf with rfl | rfl | rfl | rfl <;>
        simp [coerceField, okValD, Value.isStr]

theorem okValD_config (m : ParamMap) (h : exOk (readCoerce m Field.config_file) = true) :
    lookupKey m "config_file" = some (okValD (readCoerce m Field.config_file)) := by
  have hk : Field.key Field.config_file = "config_file" := rfl
  unfold readCoerce at h ⊢
  rw [hk] at h ⊢
  cases hl : lookupKey m "config_file" with
  | none => rw [hl] at h; simp [exOk] at h
  | some v => simp [coerceField, okValD]

/-! ### Helper lemmas about `run` -/

theorem run_config_eq (cfg : Cfg) (ds : String) (cuda : Bool)
    (fs : String → Option YamlDoc) (t : DateTime) (p : String) (doc : YamlDoc) (art : Value)
    (hp : cfg.config_file = .str p) (hne : p ≠ "") (hfs : fs p = some doc)
    (hart : lookupKey doc "model" = some art) :
    run cfg ds cuda fs t =
      ({ initEffects with
         openedPaths := [p]
         modelArtifact := some art
         callbackAdded := true
         createdDirs := [(pyStr cfg.output_folder, true),
                         (joinPath (pyStr cfg.output_folder) (strftimeYmdHMS t), true)]
         trainCalls := [doc]
         progressEmits := 1
         ended := true }, none) := by
  unfold run
  rw [hp]
  have ht : Value.truthy (.str p) = true := by simp [Value.truthy, hne]
  rw [ht]
  simp only [if_true, hfs, hart]

theorem run_mapped_eq (cfg : Cfg) (ds : String) (cuda : Bool)
    (fs : String → Option YamlDoc) (t : DateTime)
    (h : Value.truthy cfg.config_file = false) :
    run cfg ds cuda fs t =
      ({ initEffects with
         modelArtifact := some (.str (pyStr cfg.model_name ++ ".pt"))
         callbackAdded := true
         createdDirs := [(pyStr cfg.output_folder, true),
                         (joinPath (pyStr cfg.output_folder) (strftimeYmdHMS t), true)]
         trainCalls := [mappedTrainArgs cfg ds (deviceOf cuda)
           (joinPath (pyStr cfg.output_folder) (strftimeYmdHMS t))]
         progressEmits := 1
         ended := true }, none) := by
  unfold run
  rw [h]
  simp only [Bool.false_eq_true, if_false]

theorem run_config_nofile_eq (cfg : Cfg) (ds : String) (cuda : Bool)
    (fs : String → Option YamlDoc) (t : DateTime) (p : String)
    (hp : cfg.config_file = .str p) (hne : p ≠ "") (hfs : fs p = none) :
    run cfg ds cuda fs t = ({ initEffects with openedPaths := [p] }, some (.fileErr p)) := by
  unfold run
  rw [hp]
  have ht : Value.truthy (.str p) = true := by simp [Value.truthy, hne]
  rw [ht]
  simp only [if_true, hfs]

theorem run_config_nomodel_eq (cfg : Cfg) (ds : String) (cuda : Bool)
    (fs : String → Option YamlDoc) (t : DateTime) (p : String) (doc : YamlDoc)
    (hp : cfg.config_file = .str p) (hne : p ≠ "") (hfs : fs p = some doc)
    (hmodel : lookupKey doc "model" = none) :
    run cfg ds cuda fs t = ({ initEffects with openedPaths := [p] }, some (.keyErr "model")) := by
  unfold run
  rw [hp]
  have ht : Value.truthy (.str p) = true := by simp [Value.truthy, hne]
  rw [ht]
  simp only [if_true, hfs, hmodel]

/-! ### Helper lemmas about strings and the timestamp format -/

theorem str_append_left_cancel {a b c : String} (h : a ++ b = a ++ c) : b = c := by
  have hd : a.data ++ b.data = a.data ++ c.data := by
    simpa [String.data_append] using congrArg String.data h
  have hbc : b.data = c.data := List.append_cancel_left hd
  exact String.ext hbc

theorem joinPath_right_inj (a b1 b2 : String)
    (hb1 : b1.data.head? ≠ some '/') (hb2 : b2.data.head? ≠ some '/')
    (h : joinPath a b1 = joinPath a b2) : b1 = b2 := by
  unfold joinPath at h
  rw [if_neg hb1, if_neg hb2] at h
  by_cases ha : a = ""
  · rw [if_pos ha, if_pos ha] at h; exact h
  · rw [if_neg ha, if_neg ha] at h
    by_cases hs : endsWithSlash a = true
    · rw [if_pos hs, if_pos hs] at h
      exact str_append_left_cancel h
    · rw [if_neg hs, if_neg hs] at h
      exact str_append_left_cancel h

theorem digitChar_inj (a b : Nat) (h : digitChar a = digitChar b) : a % 10 = b % 10 := by
  have hb : ∀ x < 10, ∀ y < 10, Char.ofNat (48 + x) = Char.ofNat (48 + y) → x = y := by decide
  exact hb (a % 10) (Nat.mod_lt a (by omega)) (b % 10) (Nat.mod_lt b (by omega)) h

theorem digitChar_ne_slash (n : Nat) : digitChar n ≠ '/' := by
  have hb : ∀ x < 10, Char.ofNat (48 + x) ≠ '/' := by decide
  exact hb (n % 10) (Nat.mod_lt n (by omega))

theorem strftime_data (t : DateTime) :
    (strftimeYmdHMS t).data =
      pad4 t.year ++ pad2 t.month ++ pad2 t.day ++ ['_'] ++
        pad2 t.hour ++ pad2 t.minute ++ pad2 t.second := rfl

theorem strftime_head_ne_slash (t : DateTime) :
    (strftimeYmdHMS t).data.head? ≠ some '/' := by
  rw [strftime_data]
  simp only [pad4, pad2, List.cons_append, List.head?_cons]
  intro hc
  exact digitChar_ne_slash (t.year / 1000) (Option.some.inj hc)

theorem strftime_inj (t1 t2 : DateTime) (h1 : validDT t1) (h2 : validDT t2)
    (h : strftimeYmdHMS t1 = strftimeYmdHMS t2) : t1 = t2 := by
  obtain ⟨y1, mo1, d1, hr1, mi1, s1⟩ := t1
  obtain ⟨y2, mo2, d2, hr2, mi2, s2⟩ := t2
  obtain ⟨hy1a, hy1b, hmo1a, hmo1b, hd1a, hd1b, hhr1, hmi1, hs1⟩ := h1
  obtain ⟨hy2a, hy2b, hmo2a, hmo2b, hd2a, hd2b, hhr2, hmi2, hs2⟩ := h2
  unfold strftimeYmdHMS at h
  injection h with hd
  simp only [pad4, pad2, List.cons_append, List.nil_append, List.cons.injEq,
    and_true] at hd
  obtain ⟨e1, e2, e3, e4, e5, e6, e7, e8, -, e10, e11, e12, e13, e14, e15⟩ := hd
  dsimp only at hy1a hy1b hmo1a hmo1b hd1a hd1b hhr1 hmi1 hs1
  dsimp only at hy2a hy2b hmo2a hmo2b hd2a hd2b hhr2 hmi2 hs2
  have q1 := digitChar_inj _ _ e1
  have q2 := digitChar_inj _ _ e2
  have q3 := digitChar_inj _ _ e3
  have q4 := digitChar_inj _ _ e4
  have q5 := digitChar_inj _ _ e5
  have q6 := digitChar_inj _ _ e6
  have q7 := digitChar_inj _ _ e7
  have q8 := digitChar_inj _ _ e8
  have q10 := digitChar_inj _ _ e10
  have q11 := digitChar_inj _ _ e11
  have q12 := digitChar_inj _ _ e12
  have q13 := digitChar_inj _ _ e13
  have q14 := digitChar_inj _ _ e14
  have q15 := digitChar_inj _ _ e15
  simp only [DateTime.mk.injEq]
  refine ⟨?_, ?_, ?_, ?_, ?_, ?_⟩ <;> omega

theorem run_ok_common (cfg : Cfg) (ds : String) (cuda : Bool)
    (fs : String → Option YamlDoc) (t : DateTime)
    (h : (run cfg ds cuda fs t).2 = none) :
    (run cfg ds cuda fs t).1.createdDirs =
      [(pyStr cfg.output_folder, true),
       (joinPath (pyStr cfg.output_folder) (strftimeYmdHMS t), true)] ∧
    (run cfg ds cuda fs t).1.progressEmits = 1 ∧
    (run cfg ds cuda fs t).1.ended = true := by
  by_cases ht : Value.truthy cfg.config_file = true
  · cases hcf : cfg.config_file with
    | str p =>
        have hne : p ≠ "" := by
          rw [hcf] at ht
          simpa [Value.truthy] using ht
        cases hfs : fs p with
        | none =>
            rw [run_config_nofile_eq cfg ds cuda fs t p hcf hne hfs] at h
            simp at h
        | some doc =>
            cases hart : lookupKey doc "model" with
            | none =>
                rw [run_config_nomodel_eq cfg ds cuda fs t p doc hcf hne hfs hart] at h
                simp at h
            | some art =>
                rw [run_config_eq cfg ds cuda fs t p doc art hcf hne hfs hart]
                exact ⟨rfl, rfl, rfl⟩
    | int n =>
        exfalso
        unfold run at h
        rw [hcf] at h ht
        rw [ht] at h
        simp at h
    | float q =>
        exfalso
        unfold run at h
        rw [hcf] at h ht
        rw [ht] at h
        simp at h
    | bool b =>
        exfalso
        unfold run at h
        rw [hcf] at h ht
        rw [ht] at h
        simp at h
    | device d =>
        exfalso
        unfold run at h
        rw [hcf] at h ht
        rw [ht] at h
        simp at h
  · have hf : Value.truthy cfg.config_file = false := by
      cases hb : Value.truthy cfg.config_file
      · rfl
      · exact absurd hb ht
    rw [run_mapped_eq cfg ds cuda fs t hf]
    exact ⟨rfl, rfl, rfl⟩

/-! ### Claim theorems -/

/-- Claim C3: a freshly constructed Training Configuration equals the
literal default table of §3: model_name "yolov8m-cls", epochs 100,
batch_size 8, input_size 640, dataset_split_ratio 0.9, workers 0,
optimizer "auto", weight_decay 0.0005, momentum 0.937, lr0 0.01,
lrf 0.01, config_file "", dataset_folder the local "dataset"
subfolder, output_folder the local "runs/" subfolder. -/
theorem defaults_match_table (d : String) :
    defaultCfg d =
      { dataset_folder := .str (joinPath d "dataset")
        model_name := .str "yolov8m-cls"
        epochs := .int 100
        batch_size := .int 8
        input_size := .int 640
        dataset_split := .float (0.9 : Rat)
        workers := .int 0
        optimizer := .str "auto"
        weight_decay := .float (0.0005 : Rat)
        momentum := .float (0.937 : Rat)
        lr0 := .float (0.01 : Rat)
        lrf := .float (0.01 : Rat)
        config_file := .str ""
        output_folder := .str (d ++ "/runs/") } := by
  norm_num [defaultCfg, Cfg.mk.injEq, Value.float.injEq, Rat.mkRat_eq_div]

/-- Instantiation of the defaults theorem at a concrete plugin
directory. -/
theorem defaults_match_table_witness :
    defaultCfg "/plugin" =
      { dataset_folder := .str (joinPath "/plugin" "dataset")
        model_name := .str "yolov8m-cls"
        epochs := .int 100
        batch_size := .int 8
        input_size := .int 640
        dataset_split := .float (0.9 : Rat)
        workers := .int 0
        optimizer := .str "auto"
        weight_decay := .float (0.0005 : Rat)
        momentum := .float (0.937 : Rat)
        lr0 := .float (0.01 : Rat)
        lrf := .float (0.01 : Rat)
        config_file := .str ""
        output_folder := .str ("/plugin" ++ "/runs/") } :=
  defaults_match_table "/plugin"

/-- Claim C2 counterexample: `set_values` accepts a mapping whose
`"config_file"` value is the integer 5 (no exception is raised) and
stores it verbatim, so this stored configuration value is not coerced
to its declared string/path type. -/
theorem set_values_config_file_uncoerced :
    (set_values (defaultCfg "/plugin") cexMap).2 = none ∧
    (set_values (defaultCfg "/plugin") cexMap).1.config_file = .int 5 ∧
    Value.isStr ((set_values (defaultCfg "/plugin") cexMap).1.config_file) = false := by
  decide

/-- Claim C2 (amended): on success, every stored value other than
`config_file` is coerced to its declared type (int for
epochs/batch_size/input_size/workers, float for
weight_decay/momentum/lr0/lrf/dataset_split_ratio, str for
dataset_folder/model_name/optimizer/output_folder) and equals the
conversion of the raw input, while `config_file` is stored verbatim,
uncoerced; the operation raises if a required key is absent or a value
is not coercible. -/
theorem set_values_coerces_types (c : Cfg) (m : ParamMap) :
    ((set_values c m).2 = none →
      (∀ f ∈ updOrder, (set_values c m).1.get f = okValD (readCoerce m f)) ∧
      Value.isInt ((set_values c m).1.epochs) = true ∧
      Value.isInt ((set_values c m).1.batch_size) = true ∧
      Value.isInt ((set_values c m).1.input_size) = true ∧
      Value.isInt ((set_values c m).1.workers) = true ∧
      Value.isFloat ((set_values c m).1.weight_decay) = true ∧
      Value.isFloat ((set_values c m).1.momentum) = true ∧
      Value.isFloat ((set_values c m).1.lr0) = true ∧
      Value.isFloat ((set_values c m).1.lrf) = true ∧
      Value.isFloat ((set_values c m).1.dataset_split) = true ∧
      Value.isStr ((set_values c m).1.dataset_folder) = true ∧
      Value.isStr ((set_values c m).1.model_name) = true ∧
      Value.isStr ((set_values c m).1.optimizer) = true ∧
      Value.isStr ((set_values c m).1.output_folder) = true ∧
      lookupKey m "config_file" = some ((set_values c m).1.config_file)) ∧
    (∀ f ∈ updOrder, lookupKey m (Field.key f) = none →
      ((set_values c m).2).isSome = true) ∧
    (∀ f ∈ updOrder, ∀ v, lookupKey m (Field.key f) = some v → coerceField f v = none →
      ((set_values c m).2).isSome = true) := by
  have hiff := foldl_setStep_none_iff m updOrder c
  refine ⟨?_, ?_, ?_⟩
  · intro hnone
    have hall : ∀ f ∈ updOrder, exOk (readCoerce m f) = true := hiff.mp hnone
    have heq : set_values c m = (applyAll m c updOrder, none) :=
      foldl_setStep_ok m updOrder c hall
    have hget : ∀ f ∈ updOrder, (set_values c m).1.get f = okValD (readCoerce m f) := by
      intro f hf
      rw [heq]
      exact get_applyAll_mem m updOrder c updOrder_nodup f hf
    refine ⟨hget, ?_, ?_, ?_, ?_, ?_, ?_, ?_, ?_, ?_, ?_, ?_, ?_, ?_, ?_⟩
    · rw [show (set_values c m).1.epochs
          = Cfg.get (set_values c m).1 Field.epochs from rfl,
        hget Field.epochs (by decide)]
      exact okValD_int m Field.epochs (hall Field.epochs (by decide)) (Or.inl rfl)
    · rw [show (set_values c m).1.batch_size
          = Cfg.get (set_values c m).1 Field.batch_size from rfl,
        hget Field.batch_size (by decide)]
      exact okValD_int m Field.batch_size (hall Field.batch_size (by decide))
        (Or.inr (Or.inl rfl))
    · rw [show (set_values c m).1.input_size
          = Cfg.get (set_values c m).1 Field.input_size from rfl,
        hget Field.input_size (by decide)]
      exact okValD_int m Field.input_size (hall Field.input_size (by decide))
        (Or.inr (Or.inr (Or.inl rfl)))
    · rw [show (set_values c m).1.workers
          = Cfg.get (set_values c m).1 Field.workers from rfl,
        hget Field.workers (by decide)]
      exact okValD_int m Field.workers (hall Field.workers (by decide))
        (Or.inr (Or.inr (Or.inr rfl)))
    · rw [show (set_values c m).1.weight_decay
          = Cfg.get (set_values c m).1 Field.weight_decay from rfl,
        hget Field.weight_decay (by decide)]
      exact okValD_float m Field.weight_decay (hall Field.weight_decay (by decide))
        (Or.inl rfl)
    · rw [show (set_values c m).1.momentum
          = Cfg.get (set_values c m).1 Field.momentum from rfl,
        hget Field.momentum (by decide)]
      exact okValD_float m Field.momentum (hall Field.momentum (by decide))
        (Or.inr (Or.inl rfl))
    · rw [show (set_values c m).1.lr0
          = Cfg.get (set_values c m).1 Field.lr0 from rfl,
        hget Field.lr0 (by decide)]
      exact okValD_float m Field.lr0 (hall Field.lr0 (by decide))
        (Or.inr (Or.inr (Or.inl rfl)))
    · rw [show (set_values c m).1.lrf
          = Cfg.get (set_values c m).1 Field.lrf from rfl,
        hget Field.lrf (by decide)]
      exact okValD_float m Field.lrf (hall Field.lrf (by decide))
        (Or.inr (Or.inr (Or.inr (Or.inl rfl))))
    · rw [show (set_values c m).1.dataset_split
          = Cfg.get (set_values c m).1 Field.dataset_split from rfl,
        hget Field.dataset_split (by decide)]
      exact okValD_float m Field.dataset_split (hall Field.dataset_split (by decide))
        (Or.inr (Or.inr (Or.inr (Or.inr rfl))))
    · rw [show (set_values c m).1.dataset_folder
          = Cfg.get (set_values c m).1 Field.dataset_folder from rfl,
        hget Field.dataset_folder (by decide)]
      exact okValD_str m Field.dataset_folder (hall Field.dataset_folder (by decide))
        (Or.inl rfl)
    · rw [show (set_values c m).1.model_name
          = Cfg.get (set_values c m).1 Field.model_name from rfl,
        hget Field.model_name (by decide)]
      exact okValD_str m Field.model_name (hall Field.model_name (by decide))
        (Or.inr (Or.inl rfl))
    · rw [show (set_values c m).1.optimizer
          = Cfg.get (set_values c m).1 Field.optimizer from rfl,
        hget Field.optimizer (by decide)]
      exact okValD_str m Field.optimizer (hall Field.optimizer (by decide))
        (Or.inr (Or.inr (Or.inl rfl)))
    · rw [show (set_values c m).1.output_folder
          = Cfg.get (set_values c m).1 Field.output_folder from rfl,
        hget Field.output_folder (by decide)]
      exact okValD_str m Field.output_folder (hall Field.output_folder (by decide))
        (Or.inr (Or.inr (Or.inr rfl)))
    · rw [show (set_values c m).1.config_file
          = Cfg.get (set_values c m).1 Field.config_file from rfl,
        hget Field.config_file (by decide)]
      exact okValD_config m (hall Field.config_file (by decide))
  · intro f hf hl
    cases h2 : (set_values c m).2 with
    | some e => rfl
    | none =>
        exfalso
        have hok := (hiff.mp h2) f hf
        unfold readCoerce at hok
        rw [hl] at hok
        simp [exOk] at hok
  · intro f hf v hv hcv
    cases h2 : (set_values c m).2 with
    | some e => rfl
    | none =>
        exfalso
        have hok := (hiff.mp h2) f hf
        unfold readCoerce at hok
        rw [hv] at hok
        simp [exOk, hcv] at hok

/-- Instantiation of the coercion theorem: the stringly input `"100"`
for epochs is stored as the integer 100, and a map missing the
`"epochs"` key makes the operation fail. -/
theorem set_values_coerces_types_witness :
    (set_values (defaultCfg "/plugin") wMap).1.epochs = Value.int 100 ∧
    ((set_values (defaultCfg "/plugin") wMapMissing).2).isSome = true := by
  constructor
  · have h := (set_values_coerces_types (defaultCfg "/plugin") wMap).1 (by decide)
    have hg := h.1 Field.epochs (by decide)
    calc (set_values (defaultCfg "/plugin") wMap).1.epochs
        = Cfg.get (set_values (defaultCfg "/plugin") wMap).1 Field.epochs := rfl
      _ = okValD (readCoerce wMap Field.epochs) := hg
      _ = Value.int 100 := by decide
  · exact (set_values_coerces_types (defaultCfg "/plugin") wMapMissing).2.1
      Field.epochs (by decide) (by decide)

/-- Claim C9: `set_values` is not atomic: fields are assigned in the
fixed source order dataset_folder, model_name, epochs, batch_size,
input_size, workers, optimizer, weight_decay, momentum, lr0, lrf,
config_file, dataset_split_ratio, output_folder; when the assignment
of field f fails (missing key or non-coercible value) after all
earlier ones succeeded, the operation raises and leaves every earlier
field with its new value while f and all later fields keep their
previous values. -/
theorem set_values_partial_update (c : Cfg) (m : ParamMap)
    (pre post : List Field) (f : Field)
    (hdec : updOrder = pre ++ f :: post)
    (hpre : ∀ g ∈ pre, exOk (readCoerce m g) = true)
    (hf : exOk (readCoerce m f) = false) :
    ((set_values c m).2).isSome = true ∧
    (∀ g ∈ pre, (set_values c m).1.get g = okValD (readCoerce m g)) ∧
    (∀ g ∈ f :: post, (set_values c m).1.get g = c.get g) := by
  have hnd : (pre ++ f :: post).Nodup := hdec ▸ updOrder_nodup
  obtain ⟨hndpre, hndpost, hdisj⟩ := List.nodup_append.mp hnd
  cases he : readCoerce m f with
  | ok v => rw [he] at hf; simp [exOk] at hf
  | error e =>
      have hrun : set_values c m = (applyAll m c pre, some e) := by
        unfold set_values
        rw [hdec, List.foldl_append]
        rw [foldl_setStep_ok m pre c hpre]
        show List.foldl (setStep m) (setStep m (applyAll m c pre, none) f) post = _
        rw [show setStep m (applyAll m c pre, none) f = (applyAll m c pre, some e) by
          simp [setStep, he]]
        exact foldl_setStep_error m _ e post
      refine ⟨by rw [hrun]; rfl, ?_, ?_⟩
      · intro g hg
        rw [hrun]
        exact get_applyAll_mem m pre c hndpre g hg
      · intro g hg
        rw [hrun]
        exact get_applyAll_not_mem m pre c g (fun hgpre => hdisj hgpre hg)

/-- Instantiation of the partial-update theorem: with the `"epochs"`
key missing, the two fields assigned before it keep their new values
while `batch_size` (assigned after it) keeps its default. -/
theorem set_values_partial_update_witness :
    ((set_values (defaultCfg "/plugin") wMapMissing).2).isSome = true ∧
    (set_values (defaultCfg "/plugin") wMapMissing).1.model_name = Value.str "yolov8n-cls" ∧
    (set_values (defaultCfg "/plugin") wMapMissing).1.batch_size = Value.int 8 := by
  have h := set_values_partial_update (defaultCfg "/plugin") wMapMissing
    [Field.dataset_folder, Field.model_name]
    [Field.batch_size, Field.input_size, Field.workers, Field.optimizer,
     Field.weight_decay, Field.momentum, Field.lr0, Field.lrf,
     Field.config_file, Field.dataset_split, Field.output_folder]
    Field.epochs rfl (by decide) (by decide)
  refine ⟨h.1, ?_, ?_⟩
  · have hg := h.2.1 Field.model_name (by decide)
    calc (set_values (defaultCfg "/plugin") wMapMissing).1.model_name
        = Cfg.get (set_values (defaultCfg "/plugin") wMapMissing).1 Field.model_name := rfl
      _ = okValD (readCoerce wMapMissing Field.model_name) := hg
      _ = Value.str "yolov8n-cls" := by decide
  · have hg := h.2.2 Field.batch_size (by decide)
    calc (set_values (defaultCfg "/plugin") wMapMissing).1.batch_size
        = Cfg.get (set_values (defaultCfg "/plugin") wMapMissing).1 Field.batch_size := rfl
      _ = Cfg.get (defaultCfg "/plugin") Field.batch_size := hg
      _ = Value.int 8 := by decide

/-- Claim C1: the two training-invocation modes of `run()` are
mutually exclusive and never merged: with a non-empty `config_file`
whose parse succeeds, the delegated training call receives exactly the
key-value pairs parsed from the config file (so no key absent from the
document — in particular none of the individually mapped cfg fields —
is passed); with an empty `config_file`, the config-file path is never
opened and only the individually mapped arguments are passed. -/
theorem run_modes_exclusive (cfg : Cfg) (ds : String) (cuda : Bool)
    (fs : String → Option YamlDoc) (t : DateTime) :
    (∀ p doc art, cfg.config_file = .str p → p ≠ "" → fs p = some doc →
      lookupKey doc "model" = some art →
      (run cfg ds cuda fs t).1.trainCalls = [doc] ∧
      (∀ k, k ∉ doc.map Prod.fst →
        ∀ args ∈ (run cfg ds cuda fs t).1.trainCalls, k ∉ args.map Prod.fst)) ∧
    (Value.truthy cfg.config_file = false →
      (run cfg ds cuda fs t).1.openedPaths = [] ∧
      (run cfg ds cuda fs t).1.trainCalls =
        [mappedTrainArgs cfg ds (deviceOf cuda)
          (joinPath (pyStr cfg.output_folder) (strftimeYmdHMS t))]) := by
  constructor
  · intro p doc art hp hne hfs hart
    rw [run_config_eq cfg ds cuda fs t p doc art hp hne hfs hart]
    refine ⟨rfl, ?_⟩
    intro k hk args hargs
    have ha : args = doc := by simpa using hargs
    rw [ha]
    exact hk
  · intro hfalse
    rw [run_mapped_eq cfg ds cuda fs t hfalse]
    exact ⟨rfl, rfl⟩

/-- Instantiation of the mutual-exclusivity theorem: in config-file
mode the call receives exactly the document, in mapped mode no path is
opened and the mapped arguments are passed. -/
theorem run_modes_exclusive_witness :
    (run wCfgConfig "/data" true wFs wT1).1.trainCalls = [wDoc] ∧
    (run (defaultCfg "/plugin") "/data" false wFs wT1).1.openedPaths = [] ∧
    (run (defaultCfg "/plugin") "/data" false wFs wT1).1.trainCalls =
      [mappedTrainArgs (defaultCfg "/plugin") "/data" (deviceOf false)
        (joinPath (pyStr (defaultCfg "/plugin").output_folder) (strftimeYmdHMS wT1))] := by
  have h1 := (run_modes_exclusive wCfgConfig "/data" true wFs wT1).1
    "/cfg.yaml" wDoc (.str "custom.pt") (by decide) (by decide) rfl (by decide)
  have h2 := (run_modes_exclusive (defaultCfg "/plugin") "/data" false wFs wT1).2 (by decide)
  exact ⟨h1.1, h2.1, h2.2⟩

/-- Claim C4: with empty `config_file` the model artifact used to
construct the model object is exactly the concatenation
`"<model_name>.pt"`; with non-empty `config_file` it is the value of
the parsed document's `model` field. -/
theorem model_artifact_name (cfg : Cfg) (ds : String) (cuda : Bool)
    (fs : String → Option YamlDoc) (t : DateTime) :
    (∀ name, cfg.config_file = .str "" → cfg.model_name = .str name →
      (run cfg ds cuda fs t).1.modelArtifact = some (.str (name ++ ".pt"))) ∧
    (∀ p doc art, cfg.config_file = .str p → p ≠ "" → fs p = some doc →
      lookupKey doc "model" = some art →
      (run cfg ds cuda fs t).1.modelArtifact = some art) := by
  constructor
  · intro name hcf hmn
    have hfalse : Value.truthy cfg.config_file = false := by rw [hcf]; rfl
    rw [run_mapped_eq cfg ds cuda fs t hfalse]
    show some (Value.str (pyStr cfg.model_name ++ ".pt")) = _
    rw [hmn]
    rfl
  · intro p doc art hp hne hfs hart
    rw [run_config_eq cfg ds cuda fs t p doc art hp hne hfs hart]

/-- Instantiation of the artifact-name theorem in both modes. -/
theorem model_artifact_name_witness :
    (run (defaultCfg "/plugin") "/data" false wFsEmpty wT1).1.modelArtifact
      = some (.str ("yolov8m-cls" ++ ".pt")) ∧
    (run wCfgConfig "/data" true wFs wT1).1.modelArtifact = some (.str "custom.pt") := by
  refine ⟨?_, ?_⟩
  · exact (model_artifact_name (defaultCfg "/plugin") "/data" false wFsEmpty wT1).1
      "yolov8m-cls" (by decide) (by decide)
  · exact (model_artifact_name wCfgConfig "/data" true wFs wT1).2
      "/cfg.yaml" wDoc (.str "custom.pt") (by decide) (by decide) rfl (by decide)

/-- Claim C5: a successful run creates, via `exist_ok` directory
creation (parent first, so no error when already present), an output
directory named with the current timestamp in format YYYYMMDD_HHMMSS
nested under the configured output folder; two runs at different valid
instants produce different directory names and both directories exist
after the two calls. -/
theorem run_output_dirs (cfg : Cfg) (ds : String) (cuda : Bool)
    (fs : String → Option YamlDoc) (t1 t2 : DateTime) (base : List String)
    (hv1 : validDT t1) (hv2 : validDT t2) (hne : t1 ≠ t2)
    (h1 : (run cfg ds cuda fs t1).2 = none) (h2 : (run cfg ds cuda fs t2).2 = none) :
    (run cfg ds cuda fs t1).1.createdDirs =
      [(pyStr cfg.output_folder, true),
       (joinPath (pyStr cfg.output_folder) (strftimeYmdHMS t1), true)] ∧
    joinPath (pyStr cfg.output_folder) (strftimeYmdHMS t1) ≠
      joinPath (pyStr cfg.output_folder) (strftimeYmdHMS t2) ∧
    joinPath (pyStr cfg.output_folder) (strftimeYmdHMS t1) ∈
      applyDirEffects (applyDirEffects base (run cfg ds cuda fs t1).1)
        (run cfg ds cuda fs t2).1 ∧
    joinPath (pyStr cfg.output_folder) (strftimeYmdHMS t2) ∈
      applyDirEffects (applyDirEffects base (run cfg ds cuda fs t1).1)
        (run cfg ds cuda fs t2).1 := by
  obtain ⟨hc1, -, -⟩ := run_ok_common cfg ds cuda fs t1 h1
  obtain ⟨hc2, -, -⟩ := run_ok_common cfg ds cuda fs t2 h2
  refine ⟨hc1, ?_, ?_, ?_⟩
  · intro hEq
    exact hne (strftime_inj t1 t2 hv1 hv2
      (joinPath_right_inj _ _ _ (strftime_head_ne_slash t1) (strftime_head_ne_slash t2) hEq))
  · unfold applyDirEffects
    rw [hc1]
    simp
  · unfold applyDirEffects
    rw [hc2]
    simp

/-- Instantiation of the output-directory theorem at two instants one
second apart. -/
theorem run_output_dirs_witness :
    (run (defaultCfg "/plugin") "/data" false wFsEmpty wT1).1.createdDirs =
      [(pyStr (defaultCfg "/plugin").output_folder, true),
       (joinPath (pyStr (defaultCfg "/plugin").output_folder) (strftimeYmdHMS wT1),
         true)] ∧
    joinPath (pyStr (defaultCfg "/plugin").output_folder) (strftimeYmdHMS wT1) ≠
      joinPath (pyStr (defaultCfg "/plugin").output_folder) (strftimeYmdHMS wT2) ∧
    joinPath (pyStr (defaultCfg "/plugin").output_folder) (strftimeYmdHMS wT1) ∈
      applyDirEffects
        (applyDirEffects [] (run (defaultCfg "/plugin") "/data" false wFsEmpty wT1).1)
        (run (defaultCfg "/plugin") "/data" false wFsEmpty wT2).1 ∧
    joinPath (pyStr (defaultCfg "/plugin").output_folder) (strftimeYmdHMS wT2) ∈
      applyDirEffects
        (applyDirEffects [] (run (defaultCfg "/plugin") "/data" false wFsEmpty wT1).1)
        (run (defaultCfg "/plugin") "/data" false wFsEmpty wT2).1 :=
  run_output_dirs (defaultCfg "/plugin") "/data" false wFsEmpty wT1 wT2 []
    (by decide) (by decide) (by decide) (by decide) (by decide)

/-- Claim C6: every successful run emits exactly one progress-step
signal, independently of the configured epoch count, and the declared
number of progress steps is 1. -/
theorem progress_single_step (cfg : Cfg) (ds : String) (cuda : Bool)
    (fs : String → Option YamlDoc) (t : DateTime)
    (h : (run cfg ds cuda fs t).2 = none) :
    get_progress_steps = 1 ∧ (run cfg ds cuda fs t).1.progressEmits = 1 :=
  ⟨rfl, (run_ok_common cfg ds cuda fs t h).2.1⟩

/-- Instantiation of the progress theorem at one epoch and at a
thousand epochs: both emit exactly one signal. -/
theorem progress_single_step_witness :
    (run wCfgE1 "/data" false wFsEmpty wT1).1.progressEmits = 1 ∧
    (run wCfgE1000 "/data" false wFsEmpty wT1).1.progressEmits = 1 :=
  ⟨(progress_single_step wCfgE1 "/data" false wFsEmpty wT1 (by decide)).2,
   (progress_single_step wCfgE1000 "/data" false wFsEmpty wT1 (by decide)).2⟩

/-- Claim C7: in the non-config-file mode the single delegated
training call receives exactly the individually mapped parameters —
data (the host input slot's dataset path), epochs, imgsz, batch,
workers, optimizer, momentum, weight_decay, lr0, lrf, pretrained
forced true, the selected device, and the timestamped output directory
as project — and dataset_split_ratio is not among them. -/
theorem mapped_args_exact (cfg : Cfg) (ds : String) (cuda : Bool)
    (fs : String → Option YamlDoc) (t : DateTime)
    (h : Value.truthy cfg.config_file = false) :
    (run cfg ds cuda fs t).1.trainCalls =
      [[("data", .str ds), ("epochs", cfg.epochs), ("imgsz", cfg.input_size),
        ("batch", cfg.batch_size), ("workers", cfg.workers),
        ("optimizer", cfg.optimizer), ("momentum", cfg.momentum),
        ("weight_decay", cfg.weight_decay), ("lr0", cfg.lr0), ("lrf", cfg.lrf),
        ("pretrained", .bool true), ("device", .device (deviceOf cuda)),
        ("project", .str (joinPath (pyStr cfg.output_folder) (strftimeYmdHMS t)))]] ∧
    ∀ args ∈ (run cfg ds cuda fs t).1.trainCalls,
      "dataset_split_ratio" ∉ args.map Prod.fst := by
  rw [run_mapped_eq cfg ds cuda fs t h]
  refine ⟨rfl, ?_⟩
  intro args hargs
  have ha : args = mappedTrainArgs cfg ds (deviceOf cuda)
      (joinPath (pyStr cfg.output_folder) (strftimeYmdHMS t)) := by simpa using hargs
  rw [ha]
  simp [mappedTrainArgs]

/-- Instantiation of the mapped-argument theorem at the default
configuration. -/
theorem mapped_args_exact_witness :
    (run (defaultCfg "/plugin") "/data" false wFsEmpty wT1).1.trainCalls =
      [[("data", .str "/data"), ("epochs", (defaultCfg "/plugin").epochs),
        ("imgsz", (defaultCfg "/plugin").input_size),
        ("batch", (defaultCfg "/plugin").batch_size),
        ("workers", (defaultCfg "/plugin").workers),
        ("optimizer", (defaultCfg "/plugin").optimizer),
        ("momentum", (defaultCfg "/plugin").momentum),
        ("weight_decay", (defaultCfg "/plugin").weight_decay),
        ("lr0", (defaultCfg "/plugin").lr0), ("lrf", (defaultCfg "/plugin").lrf),
        ("pretrained", .bool true), ("device", .device (deviceOf false)),
        ("project", .str (joinPath (pyStr (defaultCfg "/plugin").output_folder)
          (strftimeYmdHMS wT1)))]] ∧
    "dataset_split_ratio" ∉
      ([("data", Value.str "/data"), ("epochs", (defaultCfg "/plugin").epochs),
        ("imgsz", (defaultCfg "/plugin").input_size),
        ("batch", (defaultCfg "/plugin").batch_size),
        ("workers", (defaultCfg "/plugin").workers),
        ("optimizer", (defaultCfg "/plugin").optimizer),
        ("momentum", (defaultCfg "/plugin").momentum),
        ("weight_decay", (defaultCfg "/plugin").weight_decay),
        ("lr0", (defaultCfg "/plugin").lr0), ("lrf", (defaultCfg "/plugin").lrf),
        ("pretrained", Value.bool true), ("device", Value.device (deviceOf false)),
        ("project", Value.str (joinPath (pyStr (defaultCfg "/plugin").output_folder)
          (strftimeYmdHMS wT1)))]).map Prod.fst := by
  have h := mapped_args_exact (defaultCfg "/plugin") "/data" false wFsEmpty wT1 (by decide)
  refine ⟨h.1, ?_⟩
  apply h.2
  rw [h.1]
  exact List.mem_singleton.mpr rfl

/-- Claim C8: when the config file parses successfully but its
document lacks a `model` key, `run()` raises a missing-key error
during model-artifact determination: no model object is constructed,
no callback attached, no output directory created, no training call
made, and no progress emitted. -/
theorem config_missing_model_key (cfg : Cfg) (ds : String) (cuda : Bool)
    (fs : String → Option YamlDoc) (t : DateTime) (p : String) (doc : YamlDoc)
    (hp : cfg.config_file = .str p) (hne : p ≠ "") (hfs : fs p = some doc)
    (hmodel : lookupKey doc "model" = none) :
    (run cfg ds cuda fs t).2 = some (.keyErr "model") ∧
    (run cfg ds cuda fs t).1.modelArtifact = none ∧
    (run cfg ds cuda fs t).1.callbackAdded = false ∧
    (run cfg ds cuda fs t).1.createdDirs = [] ∧
    (run cfg ds cuda fs t).1.trainCalls = [] ∧
    (run cfg ds cuda fs t).1.progressEmits = 0 := by
  rw [run_config_nomodel_eq cfg ds cuda fs t p doc hp hne hfs hmodel]
  exact ⟨rfl, rfl, rfl, rfl, rfl, rfl⟩

/-- Instantiation of the missing-model-key theorem. -/
theorem config_missing_model_key_witness :
    (run wCfgConfig "/data" true wFsNoModel wT1).2 = some (.keyErr "model") ∧
    (run wCfgConfig "/data" true wFsNoModel wT1).1.createdDirs = [] ∧
    (run wCfgConfig "/data" true wFsNoModel wT1).1.trainCalls = [] := by
  have h := config_missing_model_key wCfgConfig "/data" true wFsNoModel wT1
    "/cfg.yaml" wDocNoModel (by decide) (by decide) rfl (by decide)
  exact ⟨h.1, h.2.2.2.1, h.2.2.2.2.1⟩

/-- Claim C10: in config-file mode the timestamped output directory is
still created under the configured output folder, but it is never
passed to the delegated training call: the call's keyword arguments
are exactly the parsed document's pairs (the model key included), so
no project argument is supplied unless the document contains one. -/
theorem config_mode_project_not_passed (cfg : Cfg) (ds : String) (cuda : Bool)
    (fs : String → Option YamlDoc) (t : DateTime) (p : String) (doc : YamlDoc) (art : Value)
    (hp : cfg.config_file = .str p) (hne : p ≠ "") (hfs : fs p = some doc)
    (hart : lookupKey doc "model" = some art) :
    (run cfg ds cuda fs t).1.createdDirs =
      [(pyStr cfg.output_folder, true),
       (joinPath (pyStr cfg.output_folder) (strftimeYmdHMS t), true)] ∧
    (run cfg ds cuda fs t).1.trainCalls = [doc] ∧
    "model" ∈ doc.map Prod.fst ∧
    ("project" ∉ doc.map Prod.fst →
      ∀ args ∈ (run cfg ds cuda fs t).1.trainCalls, "project" ∉ args.map Prod.fst) := by
  rw [run_config_eq cfg ds cuda fs t p doc art hp hne hfs hart]
  refine ⟨rfl, rfl, lookupKey_mem_keys doc "model" art hart, ?_⟩
  intro hproj args hargs
  have ha : args = doc := by simpa using hargs
  rw [ha]
  exact hproj

/-- Instantiation of the config-mode directory/argument theorem. -/
theorem config_mode_project_not_passed_witness :
    (run wCfgConfig "/data" true wFs wT1).1.createdDirs =
      [(pyStr wCfgConfig.output_folder, true),
       (joinPath (pyStr wCfgConfig.output_folder) (strftimeYmdHMS wT1), true)] ∧
    (run wCfgConfig "/data" true wFs wT1).1.trainCalls = [wDoc] ∧
    "model" ∈ wDoc.map Prod.fst := by
  have h := config_mode_project_not_passed wCfgConfig "/data" true wFs wT1
    "/cfg.yaml" wDoc (.str "custom.pt") (by decide) (by decide) rfl (by decide)
  exact ⟨h.1, h.2.1, h.2.2.1⟩

end YoloV8Cls
